import Mathlib

/-!
# Verification of the m-banking backend core

Shallow embedding of the two algorithmic cores of the repository:

* the login attempt-throttling mechanism of
  `src/api/components/authentication/authentication-controller.js`, and
* the in-memory user query engine (`getUsers`) of the users service,
  together with its HTTP controller wrapper.

Timestamps are modelled as natural numbers (milliseconds since epoch, as
returned by `Date.now()` / `new Date().getTime()`); we assume a monotone
clock, i.e. the current time is never earlier than a stored timestamp, so
JS number subtraction coincides with truncated Nat subtraction.  All clock
reads inside one request are modelled by a single `now` parameter.
-/

namespace MBanking

/-! ## Login throttle (authentication-controller.js) -/

/-- One entry of the `loginAttempts` object: `{ count, timestamp }`. -/
structure AttemptRecord where
  count : Nat
  timestamp : Nat
deriving DecidableEq, Repr

/-- The process-wide `loginAttempts` object, keyed by email. -/
def ThrottleState : Type := String → Option AttemptRecord

/-- Source helper `calculateRemainingTime`:
`Math.max(0, 1800 - Math.floor((Date.now() - lastAttemptTime) / 1000))`.
`Math.floor` of the non-negative millisecond difference divided by 1000 is
Nat division by 1000.  The result is an integer so that "never negative"
is a meaningful statement. -/
def calculateRemainingTime (now lastAttemptTime : Nat) : Int :=
  max 0 ((1800 : Int) - ((now - lastAttemptTime) / 1000 : Nat))

/-- Outcome of one `login` request: the FORBIDDEN "Too many failed login
attempts" throw (carrying the computed remaining seconds), the FORBIDDEN
"Wrong email or password" throw, or the 200 success response. -/
inductive LoginResult where
  | locked (secondsRemaining : Int)
  | wrongCredentials
  | success
deriving DecidableEq, Repr

/-- One execution of the `login` handler for `email`, where
`credentialsOk` is the value returned by
`authenticationServices.checkLoginCredentials(email, password)` (only
consulted if control reaches that call).  Mirrors the source order:

1. if `loginAttempts[email] === undefined`, initialise it to
   `{count: 1, timestamp: now}`;
2. `attempts = loginAttempts[email].count`; if `attempts > 5`, throw the
   lockout error with `calculateRemainingTime(email)`;
3. otherwise check credentials; on failure set
   `{count: attempts + 1, timestamp: now}` and throw "Wrong email or
   password";
4. on success `delete loginAttempts[email]` and respond 200.

Returns the result together with the final `loginAttempts` state. -/
def login (st : ThrottleState) (email : String) (credentialsOk : Bool) (now : Nat) :
    LoginResult × ThrottleState :=
  let record : AttemptRecord :=
    match st email with
    | some r => r
    | none => { count := 1, timestamp := now }
  let st1 : ThrottleState := fun e => if e = email then some record else st e
  let attempts := record.count
  if attempts > 5 then
    (.locked (calculateRemainingTime now record.timestamp), st1)
  else if credentialsOk then
    (.success, fun e => if e = email then none else st1 e)
  else
    (.wrongCredentials,
      fun e => if e = email then some { count := attempts + 1, timestamp := now } else st1 e)

/-- The empty `loginAttempts` object. -/
def emptyThrottle : ThrottleState := fun _ => none

/-- A concrete one-identity throttle state, for concrete evaluations. -/
def singleThrottle (email : String) (r : AttemptRecord) : ThrottleState :=
  fun e => if e = email then some r else none

end MBanking

namespace MBanking

/-! ## User query engine (users-service `getUsers`)

A user document as returned by `usersRepository.getUsers()` (i.e.
`User.find({})`): all schema fields are strings (the source stores even
`balance` as a string). -/

structure User where
  id : String
  name : String
  balance : String
  email : String
  phone : String
  account_number : String
  password : String
deriving DecidableEq, Repr

/-- Dynamic property access `user[field]`; `none` models the JS
`undefined` produced by a field name outside the schema. -/
def getField (u : User) (f : String) : Option String :=
  if f = "id" then some u.id
  else if f = "name" then some u.name
  else if f = "balance" then some u.balance
  else if f = "email" then some u.email
  else if f = "phone" then some u.phone
  else if f = "account_number" then some u.account_number
  else if f = "password" then some u.password
  else none

/-- Whether `f` names an actual field of a user document. -/
def knownField (f : String) : Bool :=
  f == "id" || f == "name" || f == "balance" || f == "email" || f == "phone" ||
    f == "account_number" || f == "password"

/-- JS `String.prototype.includes`: `v` occurs in `s` as a contiguous,
case-sensitive substring. -/
def strIncludes (s v : String) : Bool :=
  (List.range (s.length + 1)).any fun i =>
    ((s.toList.drop i).take v.length) == v.toList

/-- JS `Array.prototype.filter` with a predicate that may throw
(`.error`), evaluated left to right, as
`filteredUsers.filter(user => user[field].includes(value))` throws when
`user[field]` is `undefined`. -/
def jsFilter (p : User → Except String Bool) : List User → Except String (List User)
  | [] => .ok []
  | u :: us =>
    match p u with
    | .error e => .error e
    | .ok b =>
      match jsFilter p us with
      | .error e => .error e
      | .ok rest => .ok (if b then u :: rest else rest)

/-- The search predicate `user[field].includes(value)`: calling
`.includes` on `undefined` throws a TypeError. -/
def searchPredicate (field value : String) (u : User) : Except String Bool :=
  match getField u field with
  | none => .error "TypeError: Cannot read properties of undefined"
  | some s => .ok (strIncludes s value)

/-- JS whitespace for `String.prototype.trim` (the characters that occur
in this code base's inputs). -/
def isJsWhitespace (c : Char) : Bool :=
  c == ' ' || c == '\t' || c == '\n' || c == '\r'

/-- JS `String.prototype.trim`: strip whitespace from both ends. -/
def jsTrim (s : String) : String :=
  String.mk (((s.toList.dropWhile isJsWhitespace).reverse.dropWhile isJsWhitespace).reverse)

/-- JS `String.prototype.toLowerCase` (ASCII, which is what the compared
fields contain). -/
def jsToLower (s : String) : String :=
  String.mk (s.toList.map Char.toLower)

/-- JS `split(':')` on the character list: splits at every `':'`; the empty
string yields `[[]]` (JS `''.split(':') = ['']`). -/
def splitCharList : List Char → List (List Char)
  | [] => [[]]
  | c :: cs =>
    let rest := splitCharList cs
    if c = ':' then [] :: rest
    else
      match rest with
      | [] => [[c]]
      | r :: rs => (c :: r) :: rs

/-- JS `String.prototype.split(':')`. -/
def jsSplitColon (s : String) : List String :=
  (splitCharList s.toList).map String.mk

/-- The search phase of `getUsers`.  `.error` is an exception escaping the
phase (caught by the surrounding try/catch); `.ok none` is the explicit
`return null` when zero records match a well-formed search; `.ok (some l)`
continues with the (possibly filtered) list.  `if (search)` is JS
truthiness, false for an absent or empty string; a spec that does not
split-and-trim into exactly two parts is skipped. -/
def applySearch (users : List User) (search : Option String) :
    Except String (Option (List User)) :=
  match search with
  | none => .ok (some users)
  | some s =>
    if s = "" then .ok (some users)
    else
      match (jsSplitColon s).map jsTrim with
      | [field, value] =>
        match jsFilter (searchPredicate field value) users with
        | .error e => .error e
        | .ok filteredBySearch =>
          if filteredBySearch.length = 0 then .ok none
          else .ok (some filteredBySearch)
      | _ => .ok (some users)

/-- The comparator built in the sort phase:
`valueA`/`valueB` are the lower-cased values of the resolved sort field
(`a[sortBy].toLowerCase()`; `sortBy` is always a schema field, so the
`getD ""` default is never taken), compared lexicographically, with
`-1`/`1` multiplied by `sortOrder` (`-1` for `desc`, else `1`). -/
def jsCompare (sortBy : String) (sortOrder : Int) (a b : User) : Int :=
  let valueA := jsToLower ((getField a sortBy).getD "")
  let valueB := jsToLower ((getField b sortBy).getD "")
  if valueA < valueB then -1 * sortOrder
  else if valueB < valueA then 1 * sortOrder
  else 0

/-- JS `Array.prototype.sort` with a comparator is (since ES2019) a stable
sort that puts `a` no later than `b` whenever the comparator value is
≤ 0; it is modelled by the stable `List.mergeSort` on this `le`. -/
def sortLe (sortBy : String) (sortOrder : Int) (a b : User) : Bool :=
  decide (jsCompare sortBy sortOrder a b ≤ 0)

/-- The `sortBy` resolution of the sort phase: `let sortBy = 'email';
if (field === 'name' || field === 'email') sortBy = field;`. -/
def resolvedSortField (field : String) : String :=
  if field = "name" || field = "email" then field else "email"

/-- The (lower-cased) sort key of a user under a (raw, pre-resolution)
sort field name: the `valueA`/`valueB` of the comparator. -/
def sortKey (field : String) (u : User) : String :=
  jsToLower ((getField u (resolvedSortField field)).getD "")

/-- The sort phase of `getUsers`: skipped for an absent/empty (falsy) or
malformed spec; both parts are trimmed and lower-cased; the sort field is
allow-listed to `name`/`email` with fallback `email`. -/
def applySort (users : List User) (sort : Option String) : List User :=
  match sort with
  | none => users
  | some s =>
    if s = "" then users
    else
      match (jsSplitColon s).map (fun part => jsToLower (jsTrim part)) with
      | [field, order] =>
        let sortBy := resolvedSortField field
        let sortOrder : Int := if order = "desc" then -1 else 1
        users.mergeSort (sortLe sortBy sortOrder)
      | _ => users

/-- The projected summary pushed into `data`: exactly the six fields
`id, name, balance, email, phone, account_number`. -/
structure UserSummary where
  id : String
  name : String
  balance : String
  email : String
  phone : String
  account_number : String
deriving DecidableEq, Repr

def toSummary (u : User) : UserSummary :=
  { id := u.id, name := u.name, balance := u.balance, email := u.email,
    phone := u.phone, account_number := u.account_number }

/-- The JSON object returned by `getUsers`.  `total_pages` is an `Option`
because `Math.ceil(filteredCount / limit)` is NaN when `limit = 0`
(`none`; JSON serialises NaN as `null`). -/
structure QueryResult where
  page_number : Nat
  page_size : Nat
  count : Nat
  total_pages : Option Nat
  has_previous_page : Bool
  has_next_page : Bool
  data : List UserSummary
deriving DecidableEq, Repr

/-- The pagination-and-projection tail of `getUsers`.  `page` is the page
number, modelled as a positive natural (the controller's
`parseInt(...) || 1` default; `QueryRequest.page` is a positive integer).
The effective `limit` is `filteredCount` when the raw value is
`undefined`, NaN or `0` (`!limit || isNaN(limit)`).  The `for` loop pushes
the summaries of indices `[(page-1)*limit, page*limit)` clamped to the
collection, i.e. `take limit` of `drop ((page-1)*limit)`.  Inside
`getUsers`, `limit = 0` happens only with `filteredCount = 0`, where JS
computes `total_pages = Math.ceil(0/0) = NaN` (`none`), and
`page < NaN` in `has_next_page` is false. -/
def paginate (filteredUsers : List User) (filteredCount page : Nat)
    (limit : Option Nat) : QueryResult :=
  let limit := match limit with
    | none => filteredCount
    | some l => if l = 0 then filteredCount else l
  let startIndex := (page - 1) * limit
  let data := ((filteredUsers.drop startIndex).take limit).map toSummary
  let total_pages : Option Nat :=
    if limit = 0 then none else some ((filteredCount + limit - 1) / limit)
  { page_number := page
    page_size := limit
    count := filteredCount
    total_pages := total_pages
    has_previous_page := decide (1 < page)
    has_next_page := match total_pages with
      | none => false
      | some tp => decide (page < tp)
    data := data }

/-- Service function `getUsers(page, limit, search, sort)`.  The
try/catch around the whole body converts a thrown exception (`.error`,
e.g. the TypeError from an unknown search field) to `null` (`none`) — the
same sentinel the body returns explicitly for a zero-match search.  At the
pagination step `filteredCount` always equals `filteredUsers.length`, and
sorting (in place) does not change it. -/
def getUsers (users : List User) (page : Nat) (limit : Option Nat)
    (search sort : Option String) : Option QueryResult :=
  match applySearch users search with
  | .error _ => none
  | .ok none => none
  | .ok (some filteredUsers) =>
    some (paginate (applySort filteredUsers sort) filteredUsers.length page limit)

/-- The possible outcomes of the `getUsers` controller: the 200 JSON
response, or the NOT_FOUND error handed to `next(error)`. -/
inductive GetUsersResponse where
  | ok (body : QueryResult)
  | notFound (message : String)
deriving DecidableEq, Repr

/-- The `getUsers` controller: a `null` service result becomes the
NOT_FOUND error response "Pengguna tidak ditemukan.", anything else the
200 response. -/
def getUsersController (users : List User) (page : Nat) (limit : Option Nat)
    (search sort : Option String) : GetUsersResponse :=
  match getUsers users page limit search sort with
  | none => .notFound "Pengguna tidak ditemukan."
  | some r => .ok r

/-- A concrete user for witnesses. -/
def mkUser (nm em : String) : User :=
  { id := "id-" ++ nm, name := nm, balance := "100", email := em,
    phone := "0811", account_number := "535-1", password := "secret-hash" }

/-- The search example of the spec: users John, Bob, Joan. -/
def demoUsersJo : List User :=
  [mkUser "John" "john@x", mkUser "Bob" "bob@x", mkUser "Joan" "joan@x"]

/-- Five users, for the pagination example. -/
def demoUsers5 : List User :=
  [mkUser "A" "a@x", mkUser "B" "b@x", mkUser "C" "c@x", mkUser "D" "d@x",
    mkUser "E" "e@x"]

/-- Two users with names of different case, for the sort example. -/
def demoSortUsers : List User :=
  [mkUser "Bob" "b@x", mkUser "alice" "A@x"]

end MBanking

namespace MBanking

/-! ### Claims about the login throttle -/

/-- Helper: the result of `login` is `locked` exactly when the stored
failure count exceeds 5 (or, for a fresh identity, never, since the fresh
record has count 1). -/
theorem login_locked_iff (st : ThrottleState) (email : String) (ok : Bool) (now : Nat) :
    (∃ s, (login st email ok now).1 = .locked s) ↔
      ∃ r, st email = some r ∧ 5 < r.count := by
  cases h : st email with
  | none =>
    simp only [login, h]
    constructor
    · intro ⟨s, hs⟩
      cases ok <;> simp_all
    · intro ⟨r, hr, _⟩
      simp at hr
  | some r =>
    simp only [login, h]
    by_cases h5 : r.count > 5
    · simp only [if_pos h5]
      exact ⟨fun _ => ⟨r, rfl, h5⟩, fun _ => ⟨_, rfl⟩⟩
    · simp only [if_neg h5]
      constructor
      · intro ⟨s, hs⟩
        split at hs <;> simp_all
      · intro ⟨r', hr', hc⟩
        injection hr' with h'
        exact absurd (show 5 < r.count by rw [h']; exact hc) h5

/-- C2: whenever an attempt is rejected as Locked, the reported
`secondsRemaining` is exactly `calculateRemainingTime`, which equals
`max 0 (1800 − elapsedSeconds)`; it is never negative, strictly decreases
as elapsed whole seconds grow while the window is open, and is `0`
precisely from 1800 elapsed seconds onwards. -/
theorem lockout_secondsRemaining_spec :
    (∀ (st : ThrottleState) (email : String) (ok : Bool) (now : Nat) (r : AttemptRecord)
        (s : Int), st email = some r → (login st email ok now).1 = .locked s →
        s = calculateRemainingTime now r.timestamp) ∧
    (∀ now ts : Nat, calculateRemainingTime now ts =
        max 0 ((1800 : Int) - ((now - ts) / 1000 : Nat)) ∧
        0 ≤ calculateRemainingTime now ts) ∧
    (∀ ts e1 e2 : Nat, e1 < e2 → e1 < 1800 →
        calculateRemainingTime (ts + 1000 * e2) ts <
          calculateRemainingTime (ts + 1000 * e1) ts) ∧
    (∀ now ts : Nat, calculateRemainingTime now ts = 0 ↔ 1800 ≤ (now - ts) / 1000) := by
  refine ⟨?_, fun now ts => ⟨rfl, le_max_left _ _⟩, ?_, ?_⟩
  · intro st email ok now r s hr h
    by_cases h5 : r.count > 5
    · simp [login, hr, h5] at h
      exact h.symm
    · simp [login, hr, h5] at h
      cases ok <;> simp_all
  · intro ts e1 e2 h12 h18
    have he1 : ts + 1000 * e1 - ts = 1000 * e1 := by omega
    have he2 : ts + 1000 * e2 - ts = 1000 * e2 := by omega
    have d1 : 1000 * e1 / 1000 = e1 := Nat.mul_div_cancel_left e1 (by norm_num)
    have d2 : 1000 * e2 / 1000 = e2 := Nat.mul_div_cancel_left e2 (by norm_num)
    simp only [calculateRemainingTime, he1, he2, d1, d2]
    omega
  · intro now ts
    simp only [calculateRemainingTime]
    omega

/-- Witness for `lockout_secondsRemaining_spec`: concrete instances of each
conjunct (record with 6 failures at time 0, current time 1000 ms, so 1
elapsed second and 1799 seconds remaining). -/
theorem lockout_secondsRemaining_spec_witness :
    (1799 : Int) = calculateRemainingTime 1000 0 ∧
    calculateRemainingTime (0 + 1000 * 20) 0 < calculateRemainingTime (0 + 1000 * 10) 0 ∧
    (calculateRemainingTime 1800000 0 = 0 ↔ 1800 ≤ (1800000 - 0) / 1000) :=
  ⟨lockout_secondsRemaining_spec.1 (singleThrottle "a@b.c" ⟨6, 0⟩) "a@b.c" true 1000
      ⟨6, 0⟩ 1799 (by decide) (by decide),
    lockout_secondsRemaining_spec.2.2.1 0 10 20 (by decide) (by decide),
    lockout_secondsRemaining_spec.2.2.2 1800000 0⟩

/-- C3: a successful authentication deletes the identity's throttle record,
and a subsequent attempt for that identity behaves as a first-ever attempt:
the record is initialised with `failureCount = 1`, the attempt is never
rejected as Locked, and the outcome is decided by the credential check
alone (a failure stores `{count := 2, timestamp := now}`, i.e. the fresh
count 1 incremented). -/
theorem recordSuccess_resets_throttle :
    (∀ (st : ThrottleState) (email : String) (now : Nat),
        (st email = none ∨ ∃ r, st email = some r ∧ r.count ≤ 5) →
        (login st email true now).1 = .success ∧
        (login st email true now).2 email = none) ∧
    (∀ (st : ThrottleState) (email : String) (ok : Bool) (now : Nat),
        st email = none →
        (login st email ok now).1 = (if ok then .success else .wrongCredentials) ∧
        (login st email ok now).2 email =
          (if ok then none else some ⟨1 + 1, now⟩) ∧
        (∀ s, (login st email ok now).1 ≠ .locked s)) := by
  constructor
  · intro st email now h
    rcases h with h | ⟨r, hr, hc⟩
    · simp [login, h]
    · simp [login, hr, show ¬ r.count > 5 by omega]
  · intro st email ok now h
    cases ok <;> simp [login, h]

/-- Witness for `recordSuccess_resets_throttle`: a success for an identity
with 3 recorded failures deletes the record, and the next (failing) attempt
on the now-fresh identity stores `{count := 2}`. -/
theorem recordSuccess_resets_throttle_witness :
    ((login (singleThrottle "u@v.w" ⟨3, 42⟩) "u@v.w" true 99).1 = .success ∧
      (login (singleThrottle "u@v.w" ⟨3, 42⟩) "u@v.w" true 99).2 "u@v.w" = none) ∧
    ((login emptyThrottle "u@v.w" false 120).1 =
        (if false then .success else .wrongCredentials) ∧
      (login emptyThrottle "u@v.w" false 120).2 "u@v.w" =
        (if false then none else some ⟨1 + 1, 120⟩) ∧
      (∀ s, (login emptyThrottle "u@v.w" false 120).1 ≠ .locked s)) :=
  ⟨recordSuccess_resets_throttle.1 (singleThrottle "u@v.w" ⟨3, 42⟩) "u@v.w" 99
      (.inr ⟨⟨3, 42⟩, by decide, by decide⟩),
    recordSuccess_resets_throttle.2 emptyThrottle "u@v.w" false 120 rfl⟩

/-- C10: an attempt rejected as Locked leaves the whole `loginAttempts`
state — in particular the identity's record, its failure count and its
timestamp — completely unchanged, so repeated attempts during a lockout do
not extend the lockout window. -/
theorem locked_attempt_leaves_record_unchanged (st : ThrottleState) (email : String)
    (ok : Bool) (now : Nat) (s : Int)
    (h : (login st email ok now).1 = .locked s) :
    (login st email ok now).2 = st ∧ (login st email ok now).2 email = st email := by
  obtain ⟨r, hr, h5⟩ := (login_locked_iff st email ok now).1 ⟨s, h⟩
  have hst : (login st email ok now).2 = st := by
    funext e
    simp only [login, hr, h5, if_pos]
    by_cases he : e = email
    · subst he; simp [hr]
    · simp [he]
  exact ⟨hst, by rw [hst]⟩

/-- Witness for `locked_attempt_leaves_record_unchanged`: an identity with
6 failures is rejected and its record is untouched. -/
theorem locked_attempt_leaves_record_unchanged_witness :
    (login (singleThrottle "a@b.c" ⟨6, 500⟩) "a@b.c" true 2500).2 =
        singleThrottle "a@b.c" ⟨6, 500⟩ ∧
      (login (singleThrottle "a@b.c" ⟨6, 500⟩) "a@b.c" true 2500).2 "a@b.c" =
        singleThrottle "a@b.c" ⟨6, 500⟩ "a@b.c" :=
  locked_attempt_leaves_record_unchanged (singleThrottle "a@b.c" ⟨6, 500⟩) "a@b.c"
    true 2500 (calculateRemainingTime 2500 500) (by decide)

/-- C1 (code bug): once `failureCount` exceeds 5 the code rejects every
attempt regardless of elapsed time.  Concretely, for a record with 6
failures at time 0 and current time 1800001 ms, more than 1800 seconds
have elapsed and `calculateRemainingTime` is 0, yet `login` still rejects
the attempt as Locked (reporting 0 remaining seconds) without consulting
the credential check — the claim (and the code's own comment "the limit
resets after 30 minutes") says such an attempt must no longer be
rejected. -/
theorem locked_attempt_rejected_after_window_elapsed :
    1800 ≤ (1800001 - 0) / 1000 ∧
    calculateRemainingTime 1800001 0 = 0 ∧
    (login (singleThrottle "user@mail.com" ⟨6, 0⟩) "user@mail.com" true 1800001).1 =
      .locked 0 ∧
    (login (singleThrottle "user@mail.com" ⟨6, 0⟩) "user@mail.com" false 1800001).1 =
      .locked 0 :=
  ⟨by decide, by decide, by decide, by decide⟩

end MBanking


namespace MBanking

/-! ### Claims about the user query engine -/

/-- C6: for every collection, positive page and positive pageSize, the
result of `getUsers` (no search/sort, so the filtered collection is the
input itself) carries exactly the projected slice
`[(page-1)*pageSize, page*pageSize)` clamped to the collection, with
`total_pages` the ceiling of `count / pageSize` (characterised by
`count ≤ tp * ps < count + ps`), `has_previous_page = (page > 1)` and
`has_next_page = (page < total_pages)`; an out-of-range page yields an
empty `data` while the other fields are reported the same way. -/
theorem pagination_slice_correct (users : List User) (page ps : Nat)
    (hp : 1 ≤ page) (hps : 1 ≤ ps) :
    (getUsers users page (some ps) none none =
      some { page_number := page
             page_size := ps
             count := users.length
             total_pages := some ((users.length + ps - 1) / ps)
             has_previous_page := decide (1 < page)
             has_next_page := decide (page < (users.length + ps - 1) / ps)
             data := ((users.drop ((page - 1) * ps)).take ps).map toSummary }) ∧
    users.length ≤ ((users.length + ps - 1) / ps) * ps ∧
    ((users.length + ps - 1) / ps) * ps < users.length + ps ∧
    (users.length ≤ (page - 1) * ps →
      ((users.drop ((page - 1) * ps)).take ps).map toSummary = ([] : List UserSummary)) := by
  have hps0 : ps ≠ 0 := by omega
  refine ⟨?_, ?_, ?_, fun h => by rw [List.drop_eq_nil_of_le h]; simp⟩
  · simp [getUsers, applySearch, applySort, paginate, hps0]
  · have h1 := Nat.div_add_mod' (users.length + ps - 1) ps
    have h2 : (users.length + ps - 1) % ps < ps := Nat.mod_lt _ (by omega)
    omega
  · have h1 := Nat.div_add_mod' (users.length + ps - 1) ps
    have h2 : (users.length + ps - 1) % ps < ps := Nat.mod_lt _ (by omega)
    omega

/-- Witness for `pagination_slice_correct`: the spec example — pageSize 2
over 5 users gives `totalPages = 3`, one item on page 3, and zero items
with the same totals on page 4. -/
theorem pagination_slice_correct_witness :
    getUsers demoUsers5 3 (some 2) none none =
      some ⟨3, 2, 5, some 3, true, false, [toSummary (mkUser "E" "e@x")]⟩ ∧
    getUsers demoUsers5 4 (some 2) none none =
      some ⟨4, 2, 5, some 3, true, false, []⟩ := by
  have h3 := pagination_slice_correct demoUsers5 3 2 (by decide) (by decide)
  have h4 := pagination_slice_correct demoUsers5 4 2 (by decide) (by decide)
  exact ⟨by rw [h3.1]; decide, by rw [h4.1]; decide⟩

/-- C7 counterexample: over the empty user set with no search (and no
pageSize, the default), the code returns `count = 0` and no items, but
`total_pages` is `Math.ceil(0/0) = NaN` (modelled `none`, serialised as
JSON `null`) — not `0` as the claim states. -/
theorem empty_set_totalPages_NaN :
    (∃ r : QueryResult, getUsers ([] : List User) 1 none none none = some r ∧
        r.count = 0 ∧ r.data = []) ∧
    ¬ ∃ r : QueryResult, getUsers ([] : List User) 1 none none none = some r ∧
        r.total_pages = some 0 := by
  constructor
  · exact ⟨⟨1, 0, 0, none, false, false, []⟩, by decide, rfl, rfl⟩
  · rintro ⟨r, hr, htp⟩
    have h0 : getUsers ([] : List User) 1 none none none =
        some ⟨1, 0, 0, none, false, false, []⟩ := by decide
    rw [h0] at hr
    injection hr with h1
    rw [← h1] at htp
    simp at htp

/-- C7 amended: over the empty user set with no search, `getUsers` returns
`count = 0` and no items; `total_pages` is `0` when a positive pageSize is
supplied, but NaN (`none`), not `0`, when pageSize is absent. -/
theorem empty_set_result (page : Nat) (hp : 1 ≤ page) :
    (getUsers ([] : List User) page none none none =
      some ⟨page, 0, 0, none, decide (1 < page), false, []⟩) ∧
    ∀ ps : Nat, 1 ≤ ps →
      getUsers ([] : List User) page (some ps) none none =
        some ⟨page, ps, 0, some 0, decide (1 < page), false, []⟩ := by
  constructor
  · simp [getUsers, applySearch, applySort, paginate]
  · intro ps hps
    have hps0 : ps ≠ 0 := by omega
    have hdiv : (ps - 1) / ps = 0 := Nat.div_eq_of_lt (by omega)
    simp [getUsers, applySearch, applySort, paginate, hps0, hdiv]

/-- Witness for `empty_set_result` at page 1 and pageSize 2. -/
theorem empty_set_result_witness :
    (getUsers ([] : List User) 1 none none none =
      some ⟨1, 0, 0, none, decide (1 < 1), false, []⟩) ∧
    getUsers ([] : List User) 1 (some 2) none none =
      some ⟨1, 2, 0, some 0, decide (1 < 1), false, []⟩ :=
  ⟨(empty_set_result 1 (by decide)).1, (empty_set_result 1 (by decide)).2 2 (by decide)⟩

end MBanking

namespace MBanking

/-- A known field is always present on a user document. -/
theorem getField_isSome (u : User) (f : String) (hf : knownField f = true) :
    ∃ s, getField u f = some s := by
  simp only [knownField, Bool.or_eq_true, beq_iff_eq] at hf
  rcases hf with ((((((h | h) | h) | h) | h) | h) | h) <;> subst h <;>
    simp [getField]

/-- An unknown field reads as `undefined` on every user document. -/
theorem getField_eq_none (u : User) (f : String) (hf : knownField f = false) :
    getField u f = none := by
  unfold getField
  split_ifs <;> simp_all [knownField]

/-- Over a known field, the throwing filter is the ordinary filter. -/
theorem jsFilter_known (field value : String) (hf : knownField field = true) :
    ∀ users : List User, jsFilter (searchPredicate field value) users =
      .ok (users.filter fun u => strIncludes ((getField u field).getD "") value)
  | [] => rfl
  | u :: us => by
    obtain ⟨s, hs⟩ := getField_isSome u field hf
    have hgd : (getField u field).getD "" = s := by rw [hs]; rfl
    simp only [jsFilter, searchPredicate, hs, jsFilter_known field value hf us,
      List.filter_cons, hgd]
    by_cases hb : strIncludes s value <;> simp [hb]

/-- Over an unknown field, the filter throws at the first element. -/
theorem jsFilter_unknown (field value : String) (hf : knownField field = false)
    (u : User) (us : List User) :
    jsFilter (searchPredicate field value) (u :: us) =
      .error "TypeError: Cannot read properties of undefined" := by
  simp [jsFilter, searchPredicate, getField_eq_none u field hf]

/-- C4: for a well-formed search spec that splits-and-trims into
`[field, value]` with `field` an actual user field, `getUsers` (default
page 1, no limit, no sort) keeps exactly the records whose stored `field`
value contains `value` as a case-sensitive substring; when no record
matches, it returns the distinct no-results sentinel `null` (`none`, a 404
through the controller) instead of a page object. -/
theorem search_filter_correct (users : List User) (s field value : String)
    (hparse : (jsSplitColon s).map jsTrim = [field, value])
    (hf : knownField field = true) :
    ((users.filter fun u => strIncludes ((getField u field).getD "") value) = [] →
      getUsers users 1 none (some s) none = none ∧
      getUsersController users 1 none (some s) none =
        .notFound "Pengguna tidak ditemukan.") ∧
    ((users.filter fun u => strIncludes ((getField u field).getD "") value) ≠ [] →
      getUsers users 1 none (some s) none =
        some { page_number := 1
               page_size :=
                 (users.filter fun u => strIncludes ((getField u field).getD "") value).length
               count :=
                 (users.filter fun u => strIncludes ((getField u field).getD "") value).length
               total_pages := some 1
               has_previous_page := false
               has_next_page := false
               data :=
                 (users.filter fun u =>
                   strIncludes ((getField u field).getD "") value).map toSummary }) := by
  have hs0 : s ≠ "" := by
    intro h
    subst h
    rw [show ((jsSplitColon "").map jsTrim) = [""] from by decide] at hparse
    simp at hparse
  have hsearch : applySearch users (some s) =
      if (users.filter fun u => strIncludes ((getField u field).getD "") value).length = 0
      then .ok none
      else .ok (some (users.filter fun u => strIncludes ((getField u field).getD "") value)) := by
    simp only [applySearch]
    rw [if_neg hs0, hparse]
    simp only [jsFilter_known field value hf users]
  set m := users.filter fun u => strIncludes ((getField u field).getD "") value with hm
  constructor
  · intro hnil
    have : applySearch users (some s) = .ok none := by
      rw [hsearch, hnil]
      simp
    constructor
    · simp [getUsers, this]
    · simp [getUsersController, getUsers, this]
  · intro hne
    have hlen : m.length ≠ 0 := fun h => hne (List.length_eq_zero.mp h)
    have : applySearch users (some s) = .ok (some m) := by
      rw [hsearch]
      simp [hlen]
    have hone : (m.length + m.length - 1) / m.length = 1 := by
      have h1 : m.length + m.length - 1 = (m.length - 1) + 1 * m.length := by omega
      rw [h1, Nat.add_mul_div_right _ _ (by omega : 0 < m.length),
        Nat.div_eq_of_lt (by omega)]
    simp [getUsers, this, applySort, paginate, hlen, hone, List.take_length]

/-- Witness for `search_filter_correct`: the spec example — search
"name:Jo" over John, Bob, Joan keeps exactly John and Joan with
`totalCount = 2`. -/
theorem search_filter_correct_witness :
    getUsers demoUsersJo 1 none (some "name:Jo") none =
      some { page_number := 1
             page_size :=
               (demoUsersJo.filter fun u => strIncludes ((getField u "name").getD "") "Jo").length
             count :=
               (demoUsersJo.filter fun u => strIncludes ((getField u "name").getD "") "Jo").length
             total_pages := some 1
             has_previous_page := false
             has_next_page := false
             data :=
               (demoUsersJo.filter fun u =>
                 strIncludes ((getField u "name").getD "") "Jo").map toSummary } ∧
    (demoUsersJo.filter fun u => strIncludes ((getField u "name").getD "") "Jo").map
        toSummary =
      [toSummary (mkUser "John" "john@x"), toSummary (mkUser "Joan" "joan@x")] ∧
    (demoUsersJo.filter fun u => strIncludes ((getField u "name").getD "") "Jo").length = 2 :=
  ⟨(search_filter_correct demoUsersJo "name:Jo" "name" "Jo" (by decide) (by decide)).2
      (by decide),
    by decide, by decide⟩

/-- Elements kept by the throwing filter come from the input list. -/
theorem jsFilter_subset (p : User → Except String Bool) :
    ∀ (us l : List User), jsFilter p us = .ok l → ∀ u ∈ l, u ∈ us := by
  intro us
  induction us with
  | nil =>
    intro l h u hu
    simp only [jsFilter] at h
    injection h with h'
    subst h'
    cases hu
  | cons a as ih =>
    intro l h u hu
    simp only [jsFilter] at h
    split at h
    · cases h
    · split at h
      · cases h
      · rename_i hr
        injection h with h'
        subst h'
        split at hu
        · rcases List.mem_cons.mp hu with h1 | h1
          · exact h1 ▸ List.mem_cons_self a as
          · exact List.mem_cons_of_mem a (ih _ hr u h1)
        · exact List.mem_cons_of_mem a (ih _ hr u hu)

/-- Elements of the sort phase output come from its input. -/
theorem applySort_mem (users : List User) (sort : Option String) :
    ∀ u ∈ applySort users sort, u ∈ users := by
  intro u hu
  cases sort with
  | none => exact hu
  | some s =>
    simp only [applySort] at hu
    split at hu
    · exact hu
    · split at hu
      · exact List.mem_mergeSort.mp hu
      · exact hu

/-- Elements of the search phase output come from its input. -/
theorem applySearch_subset (users : List User) (search : Option String)
    (fl : List User) (h : applySearch users search = .ok (some fl)) :
    ∀ u ∈ fl, u ∈ users := by
  cases search with
  | none =>
    simp only [applySearch] at h
    injection h with h'
    injection h' with h''
    subst h''
    exact fun u hu => hu
  | some s =>
    simp only [applySearch] at h
    split at h
    · injection h with h'
      injection h' with h''
      subst h''
      exact fun u hu => hu
    · split at h
      · split at h
        · cases h
        · rename_i hfb
          split at h
          · cases h
          · injection h with h'
            injection h' with h''
            subst h''
            exact jsFilter_subset _ _ _ hfb
      · injection h with h'
        injection h' with h''
        subst h''
        exact fun u hu => hu

/-- C9: every item in any `getUsers` result is the six-field projection
`toSummary` of one of the input users — `UserSummary` has no password
field, so the password hash (or any other field) never appears in the
projected summaries, regardless of the query parameters — and the
projection is insensitive to the password. -/
theorem result_items_are_projections :
    (∀ (users : List User) (page : Nat) (limit : Option Nat)
        (search sort : Option String) (r : QueryResult) (item : UserSummary),
        getUsers users page limit search sort = some r → item ∈ r.data →
        ∃ u ∈ users, item = toSummary u) ∧
    (∀ (u : User) (p : String), toSummary { u with password := p } = toSummary u) := by
  refine ⟨?_, fun u p => rfl⟩
  intro users page limit search sort r item hr hitem
  simp only [getUsers] at hr
  split at hr
  · cases hr
  · cases hr
  · rename_i fl hfl
    injection hr with h'
    subst h'
    simp only [paginate] at hitem
    obtain ⟨u, hu, himg⟩ := List.mem_map.mp hitem
    have h2 : u ∈ applySort fl sort :=
      (List.drop_sublist _ _).subset ((List.take_sublist _ _).subset hu)
    exact ⟨u, applySearch_subset users search fl hfl u (applySort_mem fl sort u h2),
      himg.symm⟩

/-- Witness for `result_items_are_projections`: the John item of the
"name:Jo" query is the projection of the John user, and re-hashing a
password does not change a projection. -/
theorem result_items_are_projections_witness :
    (∃ u ∈ demoUsersJo, toSummary (mkUser "John" "john@x") = toSummary u) ∧
    toSummary { mkUser "A" "a@x" with password := "other" } =
      toSummary (mkUser "A" "a@x") :=
  ⟨result_items_are_projections.1 demoUsersJo 1 none (some "name:Jo") none
      ⟨1, 2, 2, some 1, false, false,
        [toSummary (mkUser "John" "john@x"), toSummary (mkUser "Joan" "joan@x")]⟩
      (toSummary (mkUser "John" "john@x")) (by decide) (by decide),
    result_items_are_projections.2 (mkUser "A" "a@x") "other"⟩

/-- A search spec that does not split-and-trim into two parts leaves the
search phase a no-op. -/
theorem applySearch_malformed (users : List User) (s : String)
    (h : ((jsSplitColon s).map jsTrim).length ≠ 2) :
    applySearch users (some s) = .ok (some users) := by
  simp only [applySearch]
  split
  · rfl
  · split
    · rename_i heq
      rw [heq] at h
      simp at h
    · rfl

/-- A sort spec that does not split into two parts leaves the sort phase a
no-op. -/
theorem applySort_malformed (users : List User) (t : String)
    (h : ((jsSplitColon t).map (fun part => jsToLower (jsTrim part))).length ≠ 2) :
    applySort users (some t) = users := by
  simp only [applySort]
  split
  · rfl
  · split
    · rename_i heq
      rw [heq] at h
      simp at h
    · rfl

/-- C8: a malformed search or sort spec (not exactly two parts after
split-and-trim) is silently ignored — the result is the same as with no
search / no sort, and the request still succeeds — while a well-formed
search naming an unknown user field does not crash the request: the thrown
TypeError is caught, the service returns `null`, and the controller
answers with the handled NOT_FOUND error. -/
theorem malformed_specs_ignored :
    (∀ (users : List User) (page : Nat) (limit : Option Nat) (s : String)
        (sort : Option String),
        ((jsSplitColon s).map jsTrim).length ≠ 2 →
        getUsers users page limit (some s) sort = getUsers users page limit none sort) ∧
    (∀ (users : List User) (page : Nat) (limit : Option Nat) (search : Option String)
        (t : String),
        ((jsSplitColon t).map (fun part => jsToLower (jsTrim part))).length ≠ 2 →
        getUsers users page limit search (some t) = getUsers users page limit search none) ∧
    (∀ (users : List User) (page : Nat) (limit : Option Nat) (s t : String),
        ((jsSplitColon s).map jsTrim).length ≠ 2 →
        ((jsSplitColon t).map (fun part => jsToLower (jsTrim part))).length ≠ 2 →
        (getUsers users page limit (some s) (some t)).isSome = true) ∧
    (∀ (users : List User) (page : Nat) (limit : Option Nat) (s field value : String)
        (sort : Option String),
        (jsSplitColon s).map jsTrim = [field, value] →
        knownField field = false →
        getUsers users page limit (some s) sort = none ∧
        getUsersController users page limit (some s) sort =
          .notFound "Pengguna tidak ditemukan.") := by
  refine ⟨?_, ?_, ?_, ?_⟩
  · intro users page limit s sort hs
    unfold getUsers
    rw [applySearch_malformed users s hs]
    rfl
  · intro users page limit search t ht
    cases hs : applySearch users search with
    | error e => simp [getUsers, hs]
    | ok o =>
      cases o with
      | none => simp [getUsers, hs]
      | some fl =>
        simp only [getUsers, hs]
        rw [applySort_malformed fl t ht]
        rfl
  · intro users page limit s t hs ht
    unfold getUsers
    rw [applySearch_malformed users s hs]
    rfl
  · intro users page limit s field value sort hparse hfu
    have hs0 : s ≠ "" := by
      intro h
      subst h
      rw [show ((jsSplitColon "").map jsTrim) = [""] from by decide] at hparse
      simp at hparse
    have hnone : getUsers users page limit (some s) sort = none := by
      cases users with
      | nil =>
        simp only [getUsers, applySearch]
        rw [if_neg hs0, hparse]
        simp [jsFilter]
      | cons u us =>
        simp only [getUsers, applySearch]
        rw [if_neg hs0, hparse]
        simp [jsFilter_unknown field value hfu u us]
    exact ⟨hnone, by simp [getUsersController, hnone]⟩

/-- Witness for `malformed_specs_ignored`: a one-part search spec and a
three-part sort spec are ignored, the combined request still succeeds, and
the unknown-field search "foo:bar" yields the handled NOT_FOUND error. -/
theorem malformed_specs_ignored_witness :
    (getUsers demoUsersJo 1 none (some "justname") none =
      getUsers demoUsersJo 1 none none none) ∧
    (getUsers demoUsersJo 1 none none (some "a:b:c") =
      getUsers demoUsersJo 1 none none none) ∧
    ((getUsers demoUsersJo 1 none (some "justname") (some "a:b:c")).isSome = true) ∧
    getUsersController demoUsersJo 1 none (some "foo:bar") none =
      .notFound "Pengguna tidak ditemukan." :=
  ⟨malformed_specs_ignored.1 demoUsersJo 1 none "justname" none (by decide),
    malformed_specs_ignored.2.1 demoUsersJo 1 none none "a:b:c" (by decide),
    malformed_specs_ignored.2.2.1 demoUsersJo 1 none "justname" "a:b:c" (by decide)
      (by decide),
    (malformed_specs_ignored.2.2.2 demoUsersJo 1 none "foo:bar" "foo" "bar" none
      (by decide) (by decide)).2⟩

/-- The ascending comparator accepts exactly when the lower-cased keys are
in (lexicographic) order. -/
theorem sortLe_one_iff (sortBy : String) (a b : User) :
    sortLe sortBy 1 a b = true ↔
      jsToLower ((getField a sortBy).getD "") ≤ jsToLower ((getField b sortBy).getD "") := by
  simp only [sortLe, jsCompare, decide_eq_true_iff]
  split_ifs with h1 h2
  · exact iff_of_true (by norm_num) (le_of_lt h1)
  · exact iff_of_false (by norm_num) (not_le.mpr h2)
  · exact iff_of_true le_rfl (not_lt.mp h2)

/-- The descending comparator accepts exactly when the lower-cased keys
are in reverse order. -/
theorem sortLe_negOne_iff (sortBy : String) (a b : User) :
    sortLe sortBy (-1) a b = true ↔
      jsToLower ((getField b sortBy).getD "") ≤ jsToLower ((getField a sortBy).getD "") := by
  simp only [sortLe, jsCompare, decide_eq_true_iff]
  split_ifs with h1 h2
  · exact iff_of_false (by norm_num) (not_le.mpr h1)
  · exact iff_of_true (by norm_num) (le_of_lt h2)
  · exact iff_of_true le_rfl (not_lt.mp h1)

/-- The comparator relation is transitive (for either direction). -/
theorem sortLe_trans (sortBy : String) (ord : Int) (hord : ord = 1 ∨ ord = -1) :
    ∀ a b c : User, sortLe sortBy ord a b = true → sortLe sortBy ord b c = true →
      sortLe sortBy ord a c = true := by
  rcases hord with h | h <;> subst h <;> intro a b c hab hbc
  · rw [sortLe_one_iff] at hab hbc ⊢
    exact le_trans hab hbc
  · rw [sortLe_negOne_iff] at hab hbc ⊢
    exact le_trans hbc hab

/-- The comparator relation is total (for either direction). -/
theorem sortLe_total (sortBy : String) (ord : Int) (hord : ord = 1 ∨ ord = -1) :
    ∀ a b : User, (sortLe sortBy ord a b || sortLe sortBy ord b a) = true := by
  rcases hord with h | h <;> subst h <;> intro a b <;>
    simp only [Bool.or_eq_true, sortLe_one_iff, sortLe_negOne_iff] <;>
    exact le_total _ _

/-- Users with equal lower-cased keys are accepted by the comparator in
input order (ties return 0). -/
theorem sortLe_of_key_eq (sortBy : String) (ord : Int) (hord : ord = 1 ∨ ord = -1)
    (a b : User)
    (h : jsToLower ((getField a sortBy).getD "") = jsToLower ((getField b sortBy).getD "")) :
    sortLe sortBy ord a b = true := by
  rcases hord with h1 | h1 <;> subst h1
  · rw [sortLe_one_iff]
    exact le_of_eq h
  · rw [sortLe_negOne_iff]
    exact le_of_eq h.symm

/-- C5: for a well-formed sort spec that splits into `[field, order]`
(after trim + lower-casing), the sort phase is the stable merge sort under
the source comparator; the sort field falls back to `email` unless it is
`name` or `email`; the output is a permutation of the input, pairwise
ordered by the lower-cased (lexicographic) keys — reversed exactly when
`order = "desc"`, ascending for any other value; ties keep their input
order (stability); and `getUsers` pages exactly this sorted list. -/
theorem sort_spec_correct (users : List User) (s field order : String)
    (hparse : (jsSplitColon s).map (fun part => jsToLower (jsTrim part)) = [field, order]) :
    (applySort users (some s) =
      users.mergeSort (sortLe (resolvedSortField field)
        (if order = "desc" then -1 else 1))) ∧
    (field ≠ "name" → field ≠ "email" → resolvedSortField field = "email") ∧
    (applySort users (some s)).Perm users ∧
    (order ≠ "desc" → (applySort users (some s)).Pairwise
        (fun a b => sortKey field a ≤ sortKey field b)) ∧
    (order = "desc" → (applySort users (some s)).Pairwise
        (fun a b => sortKey field b ≤ sortKey field a)) ∧
    (∀ a b : User, List.Sublist [a, b] users → sortKey field a = sortKey field b →
      List.Sublist [a, b] (applySort users (some s))) ∧
    (∀ (page : Nat) (limit : Option Nat),
      getUsers users page limit none (some s) =
        some (paginate (applySort users (some s)) users.length page limit)) := by
  have hs0 : s ≠ "" := by
    intro h
    subst h
    rw [show ((jsSplitColon "").map (fun part => jsToLower (jsTrim part))) = [""] from
      by decide] at hparse
    simp at hparse
  have heq : applySort users (some s) =
      users.mergeSort (sortLe (resolvedSortField field)
        (if order = "desc" then -1 else 1)) := by
    simp only [applySort]
    rw [if_neg hs0, hparse]
  have hord : (if order = "desc" then (-1 : Int) else 1) = 1 ∨
      (if order = "desc" then (-1 : Int) else 1) = -1 := by
    split
    · exact Or.inr rfl
    · exact Or.inl rfl
  refine ⟨heq, ?_, ?_, ?_, ?_, ?_, fun page limit => rfl⟩
  · intro h1 h2
    simp [resolvedSortField, h1, h2]
  · rw [heq]
    exact List.mergeSort_perm users _
  · intro hdesc
    rw [heq, if_neg hdesc]
    have hs := List.sorted_mergeSort
      (sortLe_trans (resolvedSortField field) 1 (Or.inl rfl))
      (sortLe_total (resolvedSortField field) 1 (Or.inl rfl)) users
    exact hs.imp (fun hab => (sortLe_one_iff _ _ _).mp hab)
  · intro hdesc
    rw [heq, hdesc, if_pos rfl]
    have hs := List.sorted_mergeSort
      (sortLe_trans (resolvedSortField field) (-1) (Or.inr rfl))
      (sortLe_total (resolvedSortField field) (-1) (Or.inr rfl)) users
    exact hs.imp (fun hab => (sortLe_negOne_iff _ _ _).mp hab)
  · intro a b hsub hkey
    rw [heq]
    exact List.pair_sublist_mergeSort (sortLe_trans _ _ hord) (sortLe_total _ _ hord)
      (sortLe_of_key_eq _ _ hord a b hkey) hsub

/-- Witness for `sort_spec_correct`: "NAME:DESC" over Bob/alice is sorted
descending by the case-insensitive name key and is paged by `getUsers`. -/
theorem sort_spec_correct_witness :
    ((applySort demoSortUsers (some "NAME:DESC")).Pairwise
      (fun a b => sortKey "name" b ≤ sortKey "name" a)) ∧
    getUsers demoSortUsers 1 none none (some "NAME:DESC") =
      some (paginate (applySort demoSortUsers (some "NAME:DESC"))
        demoSortUsers.length 1 none) :=
  ⟨(sort_spec_correct demoSortUsers "NAME:DESC" "name" "desc" (by decide)).2.2.2.2.1 rfl,
    (sort_spec_correct demoSortUsers "NAME:DESC" "name" "desc"
      (by decide)).2.2.2.2.2.2 1 none⟩

end MBanking
